import Mathlib

/-!
Verification of the ga-beacon request pipeline (ga-beacon.go).

The Go program is shallowly embedded: machine-independent pure fragments
(string trimming and splitting, scheme stripping, hex encoding, the UUID
byte masking, event construction, response selection) become Lean
functions over `List Char` / `String` / `Nat`, and the stateful HTTP
handler becomes a pure function from a `Request` record (plus explicit
inputs standing for the entropy source, the clock and the network
outcome) to a `Response` record describing every externally visible
effect: status, body choice, headers, cookie, and the dispatched payload.
-/

namespace GaBeacon

/-- Tests whether a character is the slash used by `strings.Trim(path, "/")`. -/
def isSlash (c : Char) : Bool := c == '/'

/-- Removes the maximal trailing run of characters satisfying `p`
(the trailing half of the Go `strings.Trim`). -/
def trimTrailing (p : Char → Bool) : List Char → List Char
  | [] => []
  | x :: xs =>
    let rest := trimTrailing p xs
    if rest.isEmpty && p x then [] else x :: rest

/-- Embeds `strings.Trim(s, "/")`: removes leading and trailing slashes. -/
def trimSlashes (s : String) : String :=
  String.mk (trimTrailing isSlash (s.data.dropWhile isSlash))

/-- Splits a character list at the first occurrence of `c`: returns the
characters before it and, when `c` occurs, the characters after it. -/
def splitFirst : List Char → Char → List Char × Option (List Char)
  | [], _ => ([], none)
  | x :: xs, c =>
    if x = c then ([], some xs)
    else
      let r := splitFirst xs c
      (x :: r.1, r.2)

/-- Embeds `strings.SplitN(s, sep, 2)` for a one-character separator:
one piece when the separator is absent, two pieces otherwise. -/
def splitN2 (l : List Char) (c : Char) : List (List Char)
  := match splitFirst l c with
  | (a, none) => [a]
  | (a, some b) => [a, b]

/-- String-level version of `splitN2` on the slash separator,
embedding `strings.SplitN(s, "/", 2)`. -/
def splitN2Str (s : String) : List String :=
  (splitN2 s.data '/').map String.mk

/-- Tests whether `pat` occurs at the head of `l`. -/
def startsWithL : List Char → List Char → Bool
  | _, [] => true
  | [], _ :: _ => false
  | x :: xs, y :: ys => x == y && startsWithL xs ys

/-- Removes the first occurrence of `pat` from `l`, embedding
`strings.Replace(s, pat, "", 1)` for a non-empty pattern. -/
def removeFirst : List Char → List Char → List Char
  | [], _ => []
  | x :: xs, pat =>
    if startsWithL (x :: xs) pat then (x :: xs).drop pat.length
    else x :: removeFirst xs pat

/-- Embeds the referer scheme stripping from `handler`:
`strings.Replace(strings.Replace(refOrg, "http://", "", 1), "https://", "", 1)`. -/
def stripScheme (s : String) : String :=
  String.mk (removeFirst (removeFirst s.data "http://".data) "https://".data)

/-- Lowercase hexadecimal digit for a value below 16
(the alphabet used by `encoding/hex`). -/
def hexDigit (n : Nat) : Char :=
  if n < 10 then Char.ofNat (48 + n) else Char.ofNat (87 + n)

/-- Two lowercase hexadecimal digits of one byte. -/
def byteHex (b : Nat) : List Char :=
  [hexDigit (b / 16), hexDigit (b % 16)]

/-- Embeds `hex.EncodeToString`: lowercase hexadecimal rendering of a
byte sequence, two characters per byte. -/
def hexEncode (bs : List Nat) : List Char :=
  bs.foldr (fun b acc => byteHex b ++ acc) []

/-- Tests whether a character is a lowercase hexadecimal digit. -/
def isLowerHex (c : Char) : Bool :=
  (('0' ≤ c) && (c ≤ '9')) || (('a' ≤ c) && (c ≤ 'f'))

/-- Embeds the byte masking of `generateUUID`:
`b[8] = (b[8] | 0x80) & 0xBF` followed by `b[6] = (b[6] | 0x40) & 0x4F`. -/
def maskUUIDBytes (b : List Nat) : List Nat :=
  let b1 := b.set 8 ((b.getD 8 0 ||| 0x80) &&& 0xBF)
  b1.set 6 ((b1.getD 6 0 ||| 0x40) &&& 0x4F)

/-- Embeds `generateUUID`.  The entropy source `crypto/rand.Read` is an
explicit input: `none` stands for a failed read (the function then
reports the error and produces no identity), `some b` for a successful
read of the byte list `b`.  On success the sixteen bytes are masked and
rendered as lowercase hexadecimal. -/
def generateUUID (entropy : Option (List Nat)) : Option String :=
  match entropy with
  | none => none
  | some b => some (String.mk (hexEncode (maskUUIDBytes b)))

/-- Embeds `generateSessionID`: the current Unix epoch second rendered
as a decimal string (`strconv.FormatInt(now, 10)`).  The clock is an
explicit input. -/
def generateSessionID (nowUnix : Int) : String := toString nowUnix

/-- Parsed query string: each key with its ordered list of values, as
in `url.Values`. -/
abbrev Query := List (String × List String)

/-- Tests whether `k` is a key of the query (`_, ok := query[k]`). -/
def hasKey (q : Query) (k : String) : Bool :=
  q.any (fun kv => decide (kv.1 = k))

/-- Embeds `url.Values.Set(k, v)`: the key is bound to the single value
`v`, replacing existing values, appended when absent. -/
def setKey (q : Query) (k v : String) : Query :=
  if hasKey q k then q.map (fun kv => if kv.1 = k then (k, [v]) else kv)
  else q ++ [(k, [v])]

/-- Embeds `isReservedParam`: membership in the reserved key list. -/
def isReservedParam (p : String) : Bool :=
  ["referer", "pixel", "gif", "flat", "flat-gif", "useReferer"].any
    (fun r => decide (p = r))

/-- Association list lookup on string keys, used to state which
parameters an event carries. -/
def lookupQ : List (String × String) → String → Option String
  | [], _ => none
  | (k, v) :: rest, key => if key = k then some v else lookupQ rest key

/-- GA4 event: name and parameters (`GA4Event`).  All parameter values
produced by this program are strings, so the params map is embedded as
an association list of strings. -/
structure GA4Event where
  name : String
  params : List (String × String)
deriving DecidableEq

/-- GA4 payload: client id and event list (`GA4Payload`). -/
structure GA4Payload where
  client_id : String
  events : List GA4Event
deriving DecidableEq

/-- Base parameters of the `page_view` event built by `logHit`:
session id, user agent, ip address and RFC3339 timestamp.  The RFC3339
rendering of the current time (`time.Now().Format(time.RFC3339)`, a
standard library call) is an explicit input. -/
def eventBaseParams (ua ip : String) (nowUnix : Int) (nowRFC3339 : String) :
    List (String × String) :=
  [("session_id", generateSessionID nowUnix),
   ("user_agent", ua),
   ("ip_address", ip),
   ("timestamp", nowRFC3339)]

/-- Custom parameters of the event built by `logHit`: every query key
with at least one value that is not reserved contributes
`custom_<key> = first value`. -/
def eventCustomParams (q : Query) : List (String × String) :=
  (q.filter (fun kv => !kv.2.isEmpty && !isReservedParam kv.1)).map
    (fun kv => ("custom_" ++ kv.1, kv.2.headD ""))

/-- Embeds `logHit`: builds the GA4 payload with a single `page_view`
event.  The path segments are accepted but, as in the source, not used
in the event. -/
def logHit (segs : List String) (query : Query) (ua ip cid : String)
    (nowUnix : Int) (nowRFC3339 : String) : GA4Payload :=
  let _ := segs
  { client_id := cid,
    events := [{ name := "page_view",
                 params := eventBaseParams ua ip nowUnix nowRFC3339 ++
                           eventCustomParams query }] }

/-- Embeds `sendToGA` as seen from the handler: JSON marshaling of this
payload type is total, so the only failure is the POST itself; the
network outcome is an explicit boolean input and the returned value is
the error, `none` on success.  The outcome is logged either way. -/
def sendToGA (networkOk : Bool) (p : GA4Payload) : Option String :=
  let _ := p
  if networkOk then none else some "GA collector POST error"

/-- Bodies the handler can write: the five badge and pixel assets
(opaque preloaded byte buffers in the source) and the account page. -/
inductive BodyKind where
  | pixel
  | badgeGif
  | badgeFlat
  | badgeFlatGif
  | badge
  | accountPage
deriving DecidableEq

/-- Embeds the body selection chain at the end of `handler`: first
matching key among `pixel`, `gif`, `flat`, `flat-gif` wins, the SVG
badge is the default; paired with the Content-Type it sets. -/
def selectBody (q : Query) : BodyKind × String :=
  if hasKey q "pixel" then (BodyKind.pixel, "image/gif")
  else if hasKey q "gif" then (BodyKind.badgeGif, "image/gif")
  else if hasKey q "flat" then (BodyKind.badgeFlat, "image/svg+xml")
  else if hasKey q "flat-gif" then (BodyKind.badgeFlatGif, "image/gif")
  else (BodyKind.badge, "image/svg+xml")

/-- Inbound request state the handler reads: URL path, parsed query,
Referer header, the `cid` cookie when present, User-Agent and remote
address. -/
structure Request where
  path : String
  rawQuery : Query
  referer : String
  cidCookie : Option String
  userAgent : String
  remoteAddr : String
deriving DecidableEq

/-- Externally visible outcome of one request: status, Content-Type,
chosen body, cookie set on the response, cache headers, CID header, the
payload handed to the dispatcher (at most one: no retry), the error the
dispatcher returned (discarded by the handler), and the effective path
segments. -/
structure Response where
  status : Nat
  contentType : Option String
  body : Option BodyKind
  setCookie : Option (String × String)
  cacheControlSet : Bool
  expiresSet : Bool
  cidHeader : Option String
  dispatched : Option GA4Payload
  dispatchError : Option String
  tracked : List String
deriving DecidableEq

/-- Query after the handler injects the Referer header
(`query.Set("referer", refOrg)` when the header is non-empty). -/
def effQuery (req : Request) : Query :=
  if req.referer.length = 0 then req.rawQuery
  else setKey req.rawQuery "referer" req.referer

/-- Effective path segments after the `useReferer` rewrite in `handler`:
when `useReferer` is a query key and the Referer header is non-empty and
its scheme-stripped form is non-empty, the segments are re-derived from
the trimmed path concatenated with a slash and the stripped referer;
otherwise the original segments stand. -/
def effParams (req : Request) : List String :=
  let trimmed := trimSlashes req.path
  let params0 := splitN2Str trimmed
  if hasKey (effQuery req) "useReferer" then
    if req.referer.length ≠ 0 then
      let referer := stripScheme req.referer
      if referer.length ≠ 0 then splitN2Str (trimmed ++ "/" ++ referer)
      else params0
    else params0
  else params0

/-- Client identity resolution in the two-segment branch of `handler`:
an existing `cid` cookie is reused and no cookie is set; otherwise a new
identity is generated and a cookie scoped to `/<account>` is set;
on generation failure the identity stays empty and no cookie is set.
Returns the identity and the cookie to set. -/
def resolveCid (cookie : Option String) (entropy : Option (List Nat))
    (account : String) : String × Option (String × String) :=
  match cookie with
  | some v => (v, none)
  | none =>
    match generateUUID entropy with
    | some uuid => (uuid, some (uuid, "/" ++ account))
    | none => ("", none)

/-- Identity and cookie of a request, with the account taken from the
effective path segments. -/
def effCid (req : Request) (entropy : Option (List Nat)) :
    String × Option (String × String) :=
  resolveCid req.cidCookie entropy ((effParams req).headD "")

/-- Payload handed to the dispatcher: present exactly when the resolved
identity is non-empty, built by `logHit`. -/
def effPayload (req : Request) (entropy : Option (List Nat)) (nowUnix : Int)
    (nowRFC3339 : String) : Option GA4Payload :=
  if (effCid req entropy).1.length = 0 then none
  else some (logHit (effParams req) (effQuery req) req.userAgent
               req.remoteAddr (effCid req entropy).1 nowUnix nowRFC3339)

/-- Embeds `handler`.  Explicit inputs stand for the ambient effects:
`entropy` for the `crypto/rand` read, `nowUnix` and `nowRFC3339` for
the clock, `networkOk` for the outcome of the analytics POST. -/
def handler (req : Request) (entropy : Option (List Nat)) (nowUnix : Int)
    (nowRFC3339 : String) (networkOk : Bool) : Response :=
  let params0 := splitN2Str (trimSlashes req.path)
  if (params0.headD "").length = 0 then
    { status := 302, contentType := none, body := none, setCookie := none,
      cacheControlSet := false, expiresSet := false, cidHeader := none,
      dispatched := none, dispatchError := none, tracked := params0 }
  else
    let params := effParams req
    if params.length = 1 then
      { status := 200, contentType := none, body := some BodyKind.accountPage,
        setCookie := none, cacheControlSet := false, expiresSet := false,
        cidHeader := none, dispatched := none, dispatchError := none,
        tracked := params }
    else
      let cid := (effCid req entropy).1
      let payload? := effPayload req entropy nowUnix nowRFC3339
      let sel := selectBody (effQuery req)
      { status := 200, contentType := some sel.2, body := some sel.1,
        setCookie := (effCid req entropy).2,
        cacheControlSet := cid.length != 0,
        expiresSet := cid.length != 0,
        cidHeader := if cid.length = 0 then none else some cid,
        dispatched := payload?,
        dispatchError := match payload? with
          | some p => sendToGA networkOk p
          | none => none,
        tracked := params }

/-! Basic lemmas about the string helpers. -/

theorem splitFirst_fst_append (l r : List Char) (c : Char) :
    (splitFirst (l ++ c :: r) c).1 = (splitFirst l c).1 := by
  induction l with
  | nil => simp [splitFirst]
  | cons x xs ih =>
    by_cases hx : x = c <;> simp [splitFirst, hx, ih]

theorem splitFirst_append_of_none (l r : List Char) (c : Char)
    (h : (splitFirst l c).2 = none) :
    splitFirst (l ++ c :: r) c = (l, some r) := by
  induction l with
  | nil => simp [splitFirst]
  | cons x xs ih =>
    by_cases hx : x = c
    · simp [splitFirst, hx] at h
    · simp [splitFirst, hx] at h ⊢
      simp [ih h]

theorem splitFirst_append_snd_isSome (l r : List Char) (c : Char) :
    (splitFirst (l ++ c :: r) c).2.isSome = true := by
  induction l with
  | nil => simp [splitFirst]
  | cons x xs ih =>
    by_cases hx : x = c <;> simp [splitFirst, hx, ih]

theorem splitN2_headD (l : List Char) (c : Char) :
    (splitN2 l c).headD [] = (splitFirst l c).1 := by
  unfold splitN2
  rcases h : splitFirst l c with ⟨a, ob⟩
  cases ob <;> simp

theorem splitN2_length_one_or_two (l : List Char) (c : Char) :
    (splitN2 l c).length = 1 ∨ (splitN2 l c).length = 2 := by
  unfold splitN2
  rcases h : splitFirst l c with ⟨a, ob⟩
  cases ob <;> simp

theorem splitN2_append_length (l r : List Char) (c : Char) :
    (splitN2 (l ++ c :: r) c).length = 2 := by
  have h := splitFirst_append_snd_isSome l r c
  unfold splitN2
  rcases hs : splitFirst (l ++ c :: r) c with ⟨a, ob⟩
  cases ob with
  | none => rw [hs] at h; simp at h
  | some b => simp

theorem splitN2_length_one_snd_none (l : List Char) (c : Char)
    (h : (splitN2 l c).length = 1) : (splitFirst l c).2 = none := by
  unfold splitN2 at h
  rcases hs : splitFirst l c with ⟨a, ob⟩
  cases ob with
  | none => simp
  | some b => rw [hs] at h; simp at h

theorem splitN2Str_headD (s : String) :
    (splitN2Str s).headD "" = String.mk (splitFirst s.data '/').1 := by
  unfold splitN2Str
  rcases h : splitFirst s.data '/' with ⟨a, ob⟩
  unfold splitN2
  cases ob <;> simp [h]

theorem data_str_append (s t : String) : (s ++ t).data = s.data ++ t.data :=
  String.data_append s t

theorem data_append_slash (a b : String) :
    (a ++ "/" ++ b).data = a.data ++ '/' :: b.data := by
  rw [data_str_append, data_str_append]
  have hs : ("/" : String).data = ['/'] := rfl
  rw [hs, List.append_assoc]
  rfl

theorem splitN2Str_append_slash_length (a b : String) :
    (splitN2Str (a ++ "/" ++ b)).length = 2 := by
  unfold splitN2Str
  rw [List.length_map, data_append_slash]
  exact splitN2_append_length a.data b.data '/'

theorem splitN2Str_append_slash_headD (a b : String) :
    (splitN2Str (a ++ "/" ++ b)).headD "" = (splitN2Str a).headD "" := by
  rw [splitN2Str_headD, splitN2Str_headD, data_append_slash,
    splitFirst_fst_append]

theorem splitN2Str_append_slash_of_single (a b : String)
    (h : (splitN2Str a).length = 1) :
    splitN2Str (a ++ "/" ++ b) = [a, b] := by
  unfold splitN2Str at h ⊢
  rw [List.length_map] at h
  have hn := splitN2_length_one_snd_none a.data '/' h
  rw [data_append_slash]
  unfold splitN2
  rw [splitFirst_append_of_none a.data b.data '/' hn]
  simp

theorem trimTrailing_head?_eq (p : Char → Bool) (l : List Char) (a : Char)
    (h : (trimTrailing p l).head? = some a) : l.head? = some a := by
  cases l with
  | nil => simp [trimTrailing] at h
  | cons x xs =>
    unfold trimTrailing at h
    by_cases hc : (trimTrailing p xs).isEmpty && p x
    · simp [hc] at h
    · simp [hc] at h
      simp [h]

theorem head?_dropWhile_false (p : Char → Bool) (l : List Char) (a : Char)
    (h : (l.dropWhile p).head? = some a) : p a = false := by
  induction l with
  | nil => simp [List.dropWhile] at h
  | cons x xs ih =>
    rw [List.dropWhile_cons] at h
    by_cases hp : p x
    · simp [hp] at h; exact ih h
    · simp [hp] at h
      subst h
      simpa using hp

theorem trimSlashes_head_not_slash (s : String) (a : Char)
    (h : (trimSlashes s).data.head? = some a) : isSlash a = false := by
  unfold trimSlashes at h
  exact head?_dropWhile_false isSlash s.data a
    (trimTrailing_head?_eq isSlash (s.data.dropWhile isSlash) a h)

theorem splitFirst_fst_ne_nil (l : List Char) (c a : Char)
    (hh : l.head? = some a) (hne : ¬a = c) : (splitFirst l c).1 ≠ [] := by
  cases l with
  | nil => simp at hh
  | cons x xs =>
    simp at hh
    subst hh
    simp [splitFirst, hne]

/-! Branch lemmas for the handler. -/

theorem params0_headD_length_ne (s : String) (h : trimSlashes s ≠ "") :
    ((splitN2Str (trimSlashes s)).headD "").length ≠ 0 := by
  rw [splitN2Str_headD]
  have hdata : (trimSlashes s).data ≠ [] := by
    intro hnil
    apply h
    have : trimSlashes s = String.mk (trimSlashes s).data := rfl
    rw [this, hnil]
  rcases hhead : (trimSlashes s).data.head? with _ | a
  · rw [List.head?_eq_none_iff] at hhead
    exact absurd hhead hdata
  · have hslash := trimSlashes_head_not_slash s a hhead
    have hane : ¬a = '/' := by
      intro hq
      subst hq
      simp [isSlash] at hslash
    have hfst := splitFirst_fst_ne_nil (trimSlashes s).data '/' a hhead hane
    have : (String.mk (splitFirst (trimSlashes s).data '/').1).length
        = (splitFirst (trimSlashes s).data '/').1.length := rfl
    rw [this]
    simpa using hfst

theorem two_seg_not_root (s : String)
    (h : (splitN2Str (trimSlashes s)).length = 2) : trimSlashes s ≠ "" := by
  intro hq
  rw [hq] at h
  simp [splitN2Str, splitN2, splitFirst] at h

theorem handler_root_eq (req : Request) (e : Option (List Nat)) (n : Int)
    (ts : String) (ok : Bool) (h : trimSlashes req.path = "") :
    handler req e n ts ok =
      { status := 302, contentType := none, body := none, setCookie := none,
        cacheControlSet := false, expiresSet := false, cidHeader := none,
        dispatched := none, dispatchError := none, tracked := [""] } := by
  unfold handler
  rw [h]
  rfl

theorem handler_account_eq (req : Request) (e : Option (List Nat)) (n : Int)
    (ts : String) (ok : Bool) (hroot : trimSlashes req.path ≠ "")
    (hlen : (effParams req).length = 1) :
    handler req e n ts ok =
      { status := 200, contentType := none,
        body := some BodyKind.accountPage, setCookie := none,
        cacheControlSet := false, expiresSet := false, cidHeader := none,
        dispatched := none, dispatchError := none,
        tracked := effParams req } := by
  unfold handler
  rw [if_neg (params0_headD_length_ne req.path hroot)]
  simp only []
  rw [if_pos hlen]

theorem handler_two_seg_eq (req : Request) (e : Option (List Nat)) (n : Int)
    (ts : String) (ok : Bool) (hroot : trimSlashes req.path ≠ "")
    (hlen : (effParams req).length ≠ 1) :
    handler req e n ts ok =
      { status := 200,
        contentType := some (selectBody (effQuery req)).2,
        body := some (selectBody (effQuery req)).1,
        setCookie := (effCid req e).2,
        cacheControlSet := (effCid req e).1.length != 0,
        expiresSet := (effCid req e).1.length != 0,
        cidHeader := if (effCid req e).1.length = 0 then none
          else some (effCid req e).1,
        dispatched := effPayload req e n ts,
        dispatchError := match effPayload req e n ts with
          | some p => sendToGA ok p
          | none => none,
        tracked := effParams req } := by
  unfold handler
  rw [if_neg (params0_headD_length_ne req.path hroot)]
  simp only []
  rw [if_neg hlen]

theorem handler_dispatched_shape (req : Request) (e : Option (List Nat))
    (n : Int) (ts : String) (ok : Bool) (payload : GA4Payload)
    (hd : (handler req e n ts ok).dispatched = some payload) :
    payload = logHit (effParams req) (effQuery req) req.userAgent
      req.remoteAddr (effCid req e).1 n ts ∧
    (effCid req e).1.length ≠ 0 := by
  by_cases h1 : trimSlashes req.path = ""
  · rw [handler_root_eq req e n ts ok h1] at hd
    simp at hd
  · by_cases h2 : (effParams req).length = 1
    · rw [handler_account_eq req e n ts ok h1 h2] at hd
      simp at hd
    · rw [handler_two_seg_eq req e n ts ok h1 h2] at hd
      simp only at hd
      unfold effPayload at hd
      by_cases h3 : (effCid req e).1.length = 0
      · rw [if_pos h3] at hd
        simp at hd
      · rw [if_neg h3] at hd
        simp at hd
        exact ⟨hd.symm, h3⟩

/-! Lemmas about the effective path segments. -/

theorem effParams_rewrite (req : Request)
    (hu : hasKey (effQuery req) "useReferer" = true)
    (hr : req.referer.length ≠ 0)
    (hs : (stripScheme req.referer).length ≠ 0) :
    effParams req
      = splitN2Str (trimSlashes req.path ++ "/" ++ stripScheme req.referer) := by
  unfold effParams
  rw [if_pos hu, if_pos hr, if_pos hs]

theorem effParams_stripped_empty (req : Request)
    (hs : (stripScheme req.referer).length = 0) :
    effParams req = splitN2Str (trimSlashes req.path) := by
  unfold effParams
  by_cases hu : hasKey (effQuery req) "useReferer" = true
  · rw [if_pos hu]
    by_cases hr : req.referer.length ≠ 0
    · rw [if_pos hr, if_neg (by simp [hs])]
    · rw [if_neg hr]
  · rw [if_neg hu]

theorem effParams_no_referer (req : Request) (hr : req.referer.length = 0) :
    effParams req = splitN2Str (trimSlashes req.path) := by
  unfold effParams
  by_cases hu : hasKey (effQuery req) "useReferer" = true
  · rw [if_pos hu, if_neg (by simp [hr])]
  · rw [if_neg hu]

theorem effParams_not_useReferer (req : Request)
    (hu : ¬hasKey (effQuery req) "useReferer" = true) :
    effParams req = splitN2Str (trimSlashes req.path) := by
  unfold effParams
  rw [if_neg hu]

theorem effParams_headD (req : Request) :
    (effParams req).headD "" = (splitN2Str (trimSlashes req.path)).headD "" := by
  unfold effParams
  by_cases hu : hasKey (effQuery req) "useReferer" = true
  · rw [if_pos hu]
    by_cases hr : req.referer.length ≠ 0
    · rw [if_pos hr]
      by_cases hs : (stripScheme req.referer).length ≠ 0
      · rw [if_pos hs]
        exact splitN2Str_append_slash_headD (trimSlashes req.path)
          (stripScheme req.referer)
      · rw [if_neg hs]
    · rw [if_neg hr]
  · rw [if_neg hu]

theorem handler_tracked_eq_effParams (req : Request) (e : Option (List Nat))
    (n : Int) (ts : String) (ok : Bool) (h : trimSlashes req.path ≠ "") :
    (handler req e n ts ok).tracked = effParams req := by
  by_cases h2 : (effParams req).length = 1
  · rw [handler_account_eq req e n ts ok h h2]
  · rw [handler_two_seg_eq req e n ts ok h h2]

/-! Lemmas about query keys and the injected referer. -/

theorem hasKey_map_set (q : Query) (k v k2 : String) (h : ¬k2 = k) :
    hasKey (q.map (fun kv => if kv.1 = k then (k, [v]) else kv)) k2
      = hasKey q k2 := by
  induction q with
  | nil => rfl
  | cons kv rest ih =>
    simp only [List.map_cons, hasKey, List.any_cons] at ih ⊢
    by_cases hx : kv.1 = k
    · have hkk : ¬k = k2 := fun hh => h hh.symm
      simp [hx, hkk, ih]
    · simp [hx, ih]

theorem hasKey_setKey_ne (q : Query) (k v k2 : String) (h : ¬k2 = k) :
    hasKey (setKey q k v) k2 = hasKey q k2 := by
  unfold setKey
  by_cases hk : hasKey q k = true
  · rw [if_pos hk]
    exact hasKey_map_set q k v k2 h
  · rw [if_neg hk]
    unfold hasKey
    rw [List.any_append]
    have hkk : ¬k = k2 := fun hh => h hh.symm
    simp [hkk]

theorem hasKey_effQuery_useReferer (req : Request) :
    hasKey (effQuery req) "useReferer" = hasKey req.rawQuery "useReferer" := by
  unfold effQuery
  by_cases hr : req.referer.length = 0
  · rw [if_pos hr]
  · rw [if_neg hr]
    exact hasKey_setKey_ne req.rawQuery "referer" req.referer "useReferer"
      (by decide)

theorem string_length_ne_zero (s : String) (h : s ≠ "") : s.length ≠ 0 := by
  intro hq
  apply h
  have hd : s.data.length = 0 := hq
  have : s = String.mk s.data := rfl
  rw [this, List.length_eq_zero.mp hd]

/-! Claims. -/

/-- C9: for every request whose trimmed path is empty (root path `/`),
the response is a 302 redirect, no cookie is set, and no analytics
dispatch occurs. -/
theorem root_redirect_no_cookie_no_dispatch (req : Request)
    (e : Option (List Nat)) (n : Int) (ts : String) (ok : Bool)
    (h : trimSlashes req.path = "") :
    (handler req e n ts ok).status = 302 ∧
    (handler req e n ts ok).setCookie = none ∧
    (handler req e n ts ok).dispatched = none := by
  rw [handler_root_eq req e n ts ok h]
  exact ⟨rfl, rfl, rfl⟩

/-- Witness for C9 at the request `GET /`. -/
theorem root_redirect_no_cookie_no_dispatch_witness :
    (handler ⟨"/", [], "", none, "ua", "ip"⟩ none 0 "t" true).status = 302 ∧
    (handler ⟨"/", [], "", none, "ua", "ip"⟩ none 0 "t" true).setCookie = none ∧
    (handler ⟨"/", [], "", none, "ua", "ip"⟩ none 0 "t" true).dispatched = none :=
  root_redirect_no_cookie_no_dispatch ⟨"/", [], "", none, "ua", "ip"⟩
    none 0 "t" true (by decide)

/-- C10: for every request with a non-empty trimmed path, the first
effective path segment equals the first segment of the original trimmed
path, so the referer rewrite never changes the account segment. -/
theorem useReferer_preserves_account_segment (req : Request)
    (e : Option (List Nat)) (n : Int) (ts : String) (ok : Bool)
    (h : trimSlashes req.path ≠ "") :
    (handler req e n ts ok).tracked.headD ""
      = (splitN2Str (trimSlashes req.path)).headD "" := by
  rw [handler_tracked_eq_effParams req e n ts ok h]
  exact effParams_headD req

/-- Witness for C10 at the request `GET /a/b?useReferer` with Referer
`https://x.com/p`. -/
theorem useReferer_preserves_account_segment_witness :
    (handler ⟨"/a/b", [("useReferer", [""])], "https://x.com/p", some "c",
        "ua", "ip"⟩ none 0 "t" true).tracked.headD ""
      = (splitN2Str (trimSlashes "/a/b")).headD "" :=
  useReferer_preserves_account_segment
    ⟨"/a/b", [("useReferer", [""])], "https://x.com/p", some "c", "ua", "ip"⟩
    none 0 "t" true (by decide)

/-- C1 counterexample: at `GET /a/b?useReferer` with Referer
`https://x.com/p`, the code keeps the original page segment as a prefix,
yielding segments `["a", "b/x.com/p"]`, so the effective page segment is
not the scheme-stripped referer value `x.com/p` claimed. -/
theorem useReferer_page_segment_counterexample :
    (handler ⟨"/a/b", [("useReferer", [""])], "https://x.com/p", some "c",
        "ua", "ip"⟩ none 0 "t" true).tracked = ["a", "b/x.com/p"] ∧
    ("b/x.com/p" : String) ≠ stripScheme "https://x.com/p" :=
  ⟨by decide, by decide⟩

/-- C1 (amended): with `useReferer` as a query key and on a non-root
path, a non-empty Referer with non-empty scheme-stripped form makes the
effective segments the re-split of the full original trimmed path
concatenated with a slash and the stripped referer — so only when the
original trimmed path is a single segment does the page segment become
the stripped referer; an empty stripped referer, or an absent or empty
Referer header, leaves the original segments unchanged. -/
theorem useReferer_rewrite_amended (req : Request) (e : Option (List Nat))
    (n : Int) (ts : String) (ok : Bool)
    (hu : hasKey req.rawQuery "useReferer" = true)
    (hroot : trimSlashes req.path ≠ "") :
    (req.referer ≠ "" → stripScheme req.referer ≠ "" →
      (handler req e n ts ok).tracked
        = splitN2Str (trimSlashes req.path ++ "/" ++ stripScheme req.referer)
      ∧ ((splitN2Str (trimSlashes req.path)).length = 1 →
          (handler req e n ts ok).tracked
            = [trimSlashes req.path, stripScheme req.referer])) ∧
    (req.referer ≠ "" → stripScheme req.referer = "" →
      (handler req e n ts ok).tracked = splitN2Str (trimSlashes req.path)) ∧
    (req.referer = "" →
      (handler req e n ts ok).tracked = splitN2Str (trimSlashes req.path)) := by
  have hu' : hasKey (effQuery req) "useReferer" = true := by
    rw [hasKey_effQuery_useReferer]; exact hu
  have htr := handler_tracked_eq_effParams req e n ts ok hroot
  refine ⟨?_, ?_, ?_⟩
  · intro h1 h2
    have hrw := effParams_rewrite req hu' (string_length_ne_zero _ h1)
      (string_length_ne_zero _ h2)
    constructor
    · rw [htr, hrw]
    · intro hone
      rw [htr, hrw, splitN2Str_append_slash_of_single _ _ hone]
  · intro _ h2
    rw [htr, effParams_stripped_empty req (by rw [h2]; rfl)]
  · intro h1
    rw [htr, effParams_no_referer req (by rw [h1]; rfl)]

/-- Witness for the amended C1 at `GET /a?useReferer` with Referer
`https://x.com/p`: the single-segment path gains the stripped referer as
its page segment. -/
theorem useReferer_rewrite_amended_witness :
    (handler ⟨"/a", [("useReferer", [""])], "https://x.com/p", some "c",
        "ua", "ip"⟩ none 0 "t" true).tracked = ["a", "x.com/p"] := by
  have h := (useReferer_rewrite_amended
    ⟨"/a", [("useReferer", [""])], "https://x.com/p", some "c", "ua", "ip"⟩
    none 0 "t" true (by decide) (by decide)).1 (by decide) (by decide)
  exact (h.2 (by decide)).trans (by decide)

theorem effParams_length_two (req : Request)
    (h : (splitN2Str (trimSlashes req.path)).length = 2) :
    (effParams req).length = 2 := by
  unfold effParams
  by_cases hu : hasKey (effQuery req) "useReferer" = true
  · rw [if_pos hu]
    by_cases hr : req.referer.length ≠ 0
    · rw [if_pos hr]
      by_cases hs : (stripScheme req.referer).length ≠ 0
      · rw [if_pos hs]
        exact splitN2Str_append_slash_length (trimSlashes req.path)
          (stripScheme req.referer)
      · rw [if_neg hs]; exact h
    · rw [if_neg hr]; exact h
  · rw [if_neg hu]; exact h

theorem hasKey_effQuery_ne (req : Request) (k : String)
    (h : ¬k = "referer") :
    hasKey (effQuery req) k = hasKey req.rawQuery k := by
  unfold effQuery
  by_cases hr : req.referer.length = 0
  · rw [if_pos hr]
  · rw [if_neg hr]
    exact hasKey_setKey_ne req.rawQuery "referer" req.referer k h

/-- C3: for every request whose trimmed path yields two segments,
exactly one response body is chosen, deterministically by first-matching
query key in priority order `pixel > gif > flat > flat-gif > default`,
with the matching Content-Type header. -/
theorem response_selection_priority (req : Request) (e : Option (List Nat))
    (n : Int) (ts : String) (ok : Bool)
    (h : (splitN2Str (trimSlashes req.path)).length = 2) :
    (hasKey req.rawQuery "pixel" = true →
      (handler req e n ts ok).body = some BodyKind.pixel ∧
      (handler req e n ts ok).contentType = some "image/gif") ∧
    (hasKey req.rawQuery "pixel" = false →
      hasKey req.rawQuery "gif" = true →
      (handler req e n ts ok).body = some BodyKind.badgeGif ∧
      (handler req e n ts ok).contentType = some "image/gif") ∧
    (hasKey req.rawQuery "pixel" = false →
      hasKey req.rawQuery "gif" = false →
      hasKey req.rawQuery "flat" = true →
      (handler req e n ts ok).body = some BodyKind.badgeFlat ∧
      (handler req e n ts ok).contentType = some "image/svg+xml") ∧
    (hasKey req.rawQuery "pixel" = false →
      hasKey req.rawQuery "gif" = false →
      hasKey req.rawQuery "flat" = false →
      hasKey req.rawQuery "flat-gif" = true →
      (handler req e n ts ok).body = some BodyKind.badgeFlatGif ∧
      (handler req e n ts ok).contentType = some "image/gif") ∧
    (hasKey req.rawQuery "pixel" = false →
      hasKey req.rawQuery "gif" = false →
      hasKey req.rawQuery "flat" = false →
      hasKey req.rawQuery "flat-gif" = false →
      (handler req e n ts ok).body = some BodyKind.badge ∧
      (handler req e n ts ok).contentType = some "image/svg+xml") := by
  have h2 : (effParams req).length ≠ 1 := by rw [effParams_length_two req h]; decide
  rw [handler_two_seg_eq req e n ts ok (two_seg_not_root req.path h) h2]
  have hp := hasKey_effQuery_ne req "pixel" (by decide)
  have hg := hasKey_effQuery_ne req "gif" (by decide)
  have hf := hasKey_effQuery_ne req "flat" (by decide)
  have hfg := hasKey_effQuery_ne req "flat-gif" (by decide)
  refine ⟨?_, ?_, ?_, ?_, ?_⟩ <;> intros <;>
    constructor <;> simp_all [selectBody]

/-- Witness for C3 at `GET /a/b?flat`: the flat SVG badge is served. -/
theorem response_selection_priority_witness :
    (handler ⟨"/a/b", [("flat", [""])], "", some "c", "ua", "ip"⟩
        none 0 "t" true).body = some BodyKind.badgeFlat ∧
    (handler ⟨"/a/b", [("flat", [""])], "", some "c", "ua", "ip"⟩
        none 0 "t" true).contentType = some "image/svg+xml" :=
  (response_selection_priority
    ⟨"/a/b", [("flat", [""])], "", some "c", "ua", "ip"⟩ none 0 "t" true
    (by decide)).2.2.1 (by decide) (by decide) (by decide)

/-- C4: for every two-segment request, body and Content-Type do not
depend on the outcome of the analytics POST; the selected badge is
written either way, the dispatched payload is the same single payload
(no retry), and only the discarded dispatcher error differs. -/
theorem dispatch_failure_invisible (req : Request) (e : Option (List Nat))
    (n : Int) (ts : String)
    (h : (splitN2Str (trimSlashes req.path)).length = 2) :
    (handler req e n ts true).body = (handler req e n ts false).body ∧
    (handler req e n ts true).contentType
      = (handler req e n ts false).contentType ∧
    (handler req e n ts true).status = (handler req e n ts false).status ∧
    (handler req e n ts true).dispatched
      = (handler req e n ts false).dispatched ∧
    (handler req e n ts false).body = some (selectBody (effQuery req)).1 ∧
    (handler req e n ts false).contentType
      = some (selectBody (effQuery req)).2 := by
  have h2 : (effParams req).length ≠ 1 := by rw [effParams_length_two req h]; decide
  have hroot := two_seg_not_root req.path h
  rw [handler_two_seg_eq req e n ts true hroot h2,
    handler_two_seg_eq req e n ts false hroot h2]
  exact ⟨rfl, rfl, rfl, rfl, rfl, rfl⟩

/-- Witness for C4 at `GET /a/b?pixel` with an existing cookie. -/
theorem dispatch_failure_invisible_witness :
    (handler ⟨"/a/b", [("pixel", [""])], "", some "c", "ua", "ip"⟩
        none 0 "t" true).body
      = (handler ⟨"/a/b", [("pixel", [""])], "", some "c", "ua", "ip"⟩
        none 0 "t" false).body ∧
    (handler ⟨"/a/b", [("pixel", [""])], "", some "c", "ua", "ip"⟩
        none 0 "t" true).contentType
      = (handler ⟨"/a/b", [("pixel", [""])], "", some "c", "ua", "ip"⟩
        none 0 "t" false).contentType ∧
    (handler ⟨"/a/b", [("pixel", [""])], "", some "c", "ua", "ip"⟩
        none 0 "t" true).status
      = (handler ⟨"/a/b", [("pixel", [""])], "", some "c", "ua", "ip"⟩
        none 0 "t" false).status ∧
    (handler ⟨"/a/b", [("pixel", [""])], "", some "c", "ua", "ip"⟩
        none 0 "t" true).dispatched
      = (handler ⟨"/a/b", [("pixel", [""])], "", some "c", "ua", "ip"⟩
        none 0 "t" false).dispatched ∧
    (handler ⟨"/a/b", [("pixel", [""])], "", some "c", "ua", "ip"⟩
        none 0 "t" false).body
      = some (selectBody (effQuery
          ⟨"/a/b", [("pixel", [""])], "", some "c", "ua", "ip"⟩)).1 ∧
    (handler ⟨"/a/b", [("pixel", [""])], "", some "c", "ua", "ip"⟩
        none 0 "t" false).contentType
      = some (selectBody (effQuery
          ⟨"/a/b", [("pixel", [""])], "", some "c", "ua", "ip"⟩)).2 :=
  dispatch_failure_invisible
    ⟨"/a/b", [("pixel", [""])], "", some "c", "ua", "ip"⟩ none 0 "t"
    (by decide)

/-- C8: when identity generation fails on a two-segment request with no
`cid` cookie, no cookie and no cache, Expires or CID headers are set, no
event is dispatched, and the selected badge response is still served
with status 200. -/
theorem generate_failure_nonfatal (req : Request) (n : Int) (ts : String)
    (ok : Bool) (h : (splitN2Str (trimSlashes req.path)).length = 2)
    (hc : req.cidCookie = none) :
    (handler req none n ts ok).setCookie = none ∧
    (handler req none n ts ok).cacheControlSet = false ∧
    (handler req none n ts ok).expiresSet = false ∧
    (handler req none n ts ok).cidHeader = none ∧
    (handler req none n ts ok).dispatched = none ∧
    (handler req none n ts ok).body = some (selectBody (effQuery req)).1 ∧
    (handler req none n ts ok).contentType
      = some (selectBody (effQuery req)).2 ∧
    (handler req none n ts ok).status = 200 := by
  have h2 : (effParams req).length ≠ 1 := by rw [effParams_length_two req h]; decide
  rw [handler_two_seg_eq req none n ts ok (two_seg_not_root req.path h) h2]
  have hcid : effCid req none = ("", none) := by
    unfold effCid resolveCid
    rw [hc]
    rfl
  have hpay : effPayload req none n ts = none := by
    unfold effPayload
    rw [hcid]
    rfl
  simp [hcid, hpay]

/-- Witness for C8 at `GET /a/b` with no cookie and failing entropy. -/
theorem generate_failure_nonfatal_witness :
    (handler ⟨"/a/b", [], "", none, "ua", "ip"⟩ none 0 "t" true).setCookie
      = none ∧
    (handler ⟨"/a/b", [], "", none, "ua", "ip"⟩ none 0 "t" true).cacheControlSet
      = false ∧
    (handler ⟨"/a/b", [], "", none, "ua", "ip"⟩ none 0 "t" true).expiresSet
      = false ∧
    (handler ⟨"/a/b", [], "", none, "ua", "ip"⟩ none 0 "t" true).cidHeader
      = none ∧
    (handler ⟨"/a/b", [], "", none, "ua", "ip"⟩ none 0 "t" true).dispatched
      = none ∧
    (handler ⟨"/a/b", [], "", none, "ua", "ip"⟩ none 0 "t" true).body
      = some (selectBody (effQuery ⟨"/a/b", [], "", none, "ua", "ip"⟩)).1 ∧
    (handler ⟨"/a/b", [], "", none, "ua", "ip"⟩ none 0 "t" true).contentType
      = some (selectBody (effQuery ⟨"/a/b", [], "", none, "ua", "ip"⟩)).2 ∧
    (handler ⟨"/a/b", [], "", none, "ua", "ip"⟩ none 0 "t" true).status = 200 :=
  generate_failure_nonfatal ⟨"/a/b", [], "", none, "ua", "ip"⟩ 0 "t" true
    (by decide) rfl

/-! Lemmas about hex encoding and the UUID byte masking. -/

theorem hexEncode_length (bs : List Nat) :
    (hexEncode bs).length = 2 * bs.length := by
  induction bs with
  | nil => rfl
  | cons b rest ih =>
    simp only [hexEncode, List.foldr_cons] at ih ⊢
    rw [List.length_append, ih]
    simp [byteHex]
    omega

theorem hexDigit_lower (n : Nat) (h : n < 16) : isLowerHex (hexDigit n) = true := by
  have hall : ∀ m < 16, isLowerHex (hexDigit m) = true := by decide
  exact hall n h

theorem hexEncode_all_lower (bs : List Nat) (h : ∀ x ∈ bs, x < 256) :
    (hexEncode bs).all isLowerHex = true := by
  induction bs with
  | nil => rfl
  | cons b rest ih =>
    have hb : b < 256 := h b (by simp)
    have hd : b / 16 < 16 := (Nat.div_lt_iff_lt_mul (by norm_num)).mpr (by omega)
    have hm : b % 16 < 16 := Nat.mod_lt b (by norm_num)
    have h1 := hexDigit_lower (b / 16) hd
    have h2 := hexDigit_lower (b % 16) hm
    have hrest := ih (fun x hx => h x (by simp [hx]))
    show ((byteHex b ++ hexEncode rest).all isLowerHex) = true
    rw [List.all_append, hrest]
    simp [byteHex, h1, h2]

set_option maxRecDepth 4096 in
theorem mask8_range :
    ∀ x < 256, 128 ≤ (x ||| 128) &&& 191 ∧ (x ||| 128) &&& 191 ≤ 191 := by
  decide

set_option maxRecDepth 4096 in
theorem mask6_range :
    ∀ x < 256, 64 ≤ (x ||| 64) &&& 79 ∧ (x ||| 64) &&& 79 ≤ 79 := by
  decide

theorem getD_set_self (l : List Nat) (i v : Nat) (h : i < l.length) :
    (l.set i v).getD i 0 = v := by
  induction l generalizing i with
  | nil => simp at h
  | cons x xs ih =>
    cases i with
    | zero => rfl
    | succ n =>
      simp only [List.set]
      have : n < xs.length := by simpa using h
      simpa using ih n this

theorem getD_set_ne (l : List Nat) (i j v : Nat) (h : ¬i = j) :
    (l.set i v).getD j 0 = l.getD j 0 := by
  induction l generalizing i j with
  | nil => simp
  | cons x xs ih =>
    cases i with
    | zero =>
      cases j with
      | zero => exact absurd rfl h
      | succ m => rfl
    | succ n =>
      cases j with
      | zero => rfl
      | succ m =>
        simp only [List.set]
        have : ¬n = m := fun hq => h (by rw [hq])
        simpa using ih n m this

theorem getD_mem (l : List Nat) (i : Nat) (h : i < l.length) :
    l.getD i 0 ∈ l := by
  rw [List.getD_eq_getElem l 0 h]
  exact List.getElem_mem h

theorem mem_set_bound (l : List Nat) (i v : Nat) (hv : v < 256)
    (h : ∀ x ∈ l, x < 256) : ∀ x ∈ l.set i v, x < 256 := by
  intro x hx
  rcases List.mem_or_eq_of_mem_set hx with hm | he
  · exact h x hm
  · rw [he]; exact hv

theorem maskUUIDBytes_length (b : List Nat) :
    (maskUUIDBytes b).length = b.length := by
  simp [maskUUIDBytes]

theorem maskUUIDBytes_getD8 (b : List Nat) (h : b.length = 16) :
    (maskUUIDBytes b).getD 8 0 = (b.getD 8 0 ||| 128) &&& 191 := by
  unfold maskUUIDBytes
  simp only []
  rw [getD_set_ne _ 6 8 _ (by decide), getD_set_self _ 8 _ (by rw [h]; decide)]

theorem maskUUIDBytes_getD6 (b : List Nat) (h : b.length = 16) :
    (maskUUIDBytes b).getD 6 0 = (b.getD 6 0 ||| 64) &&& 79 := by
  unfold maskUUIDBytes
  simp only []
  rw [getD_set_self _ 6 _ (by simp [h]), getD_set_ne _ 8 6 _ (by decide)]

theorem maskUUIDBytes_getD_other (b : List Nat) (i : Nat) (h6 : ¬i = 6)
    (h8 : ¬i = 8) : (maskUUIDBytes b).getD i 0 = b.getD i 0 := by
  unfold maskUUIDBytes
  simp only []
  rw [getD_set_ne _ 6 i _ (fun hq => h6 hq.symm),
    getD_set_ne _ 8 i _ (fun hq => h8 hq.symm)]

theorem maskUUIDBytes_bound (b : List Nat) (h : ∀ x ∈ b, x < 256) :
    ∀ x ∈ maskUUIDBytes b, x < 256 := by
  unfold maskUUIDBytes
  simp only []
  apply mem_set_bound
  · have := mask6_range ((b.set 8 ((b.getD 8 0 ||| 128) &&& 191)).getD 6 0)
    have hle : ((b.set 8 ((b.getD 8 0 ||| 128) &&& 191)).getD 6 0 ||| 64) &&& 79 ≤ 79 :=
      Nat.le_trans (Nat.and_le_right) (by norm_num)
    omega
  · apply mem_set_bound
    · have hle : (b.getD 8 0 ||| 128) &&& 191 ≤ 191 := Nat.and_le_right
      omega
    · exact h

theorem uuidStr_length (b : List Nat) (h : b.length = 16) :
    (String.mk (hexEncode (maskUUIDBytes b))).length = 32 := by
  have : (String.mk (hexEncode (maskUUIDBytes b))).length
      = (hexEncode (maskUUIDBytes b)).length := rfl
  rw [this, hexEncode_length, maskUUIDBytes_length, h]

theorem uuidStr_lower (b : List Nat) (h : ∀ x ∈ b, x < 256) :
    (hexEncode (maskUUIDBytes b)).all isLowerHex = true :=
  hexEncode_all_lower (maskUUIDBytes b) (maskUUIDBytes_bound b h)

/-- C6: the identity generator fails exactly when the entropy read
fails; on sixteen valid bytes it forces byte 8 into `0x80`–`0xBF` and
byte 6 into `0x40`–`0x4F`, leaves the other bytes unchanged, and
encodes the masked sixteen bytes as a 32-character lowercase
hexadecimal string. -/
theorem generateUUID_masking_spec (b : List Nat) (h1 : b.length = 16)
    (h2 : ∀ x ∈ b, x < 256) :
    generateUUID none = none ∧
    ∃ b2, generateUUID (some b) = some (String.mk (hexEncode b2)) ∧
      b2.length = 16 ∧
      128 ≤ b2.getD 8 0 ∧ b2.getD 8 0 ≤ 191 ∧
      64 ≤ b2.getD 6 0 ∧ b2.getD 6 0 ≤ 79 ∧
      (∀ i, ¬i = 6 → ¬i = 8 → b2.getD i 0 = b.getD i 0) ∧
      (String.mk (hexEncode b2)).length = 32 ∧
      (hexEncode b2).all isLowerHex = true := by
  have hb8 : b.getD 8 0 < 256 := h2 _ (getD_mem b 8 (by rw [h1]; decide))
  have hb6 : b.getD 6 0 < 256 := h2 _ (getD_mem b 6 (by rw [h1]; decide))
  have h8 := mask8_range (b.getD 8 0) hb8
  have h6 := mask6_range (b.getD 6 0) hb6
  refine ⟨rfl, maskUUIDBytes b, rfl, ?_, ?_, ?_, ?_, ?_, ?_, ?_, ?_⟩
  · rw [maskUUIDBytes_length, h1]
  · rw [maskUUIDBytes_getD8 b h1]; exact h8.1
  · rw [maskUUIDBytes_getD8 b h1]; exact h8.2
  · rw [maskUUIDBytes_getD6 b h1]; exact h6.1
  · rw [maskUUIDBytes_getD6 b h1]; exact h6.2
  · exact fun i hi6 hi8 => maskUUIDBytes_getD_other b i hi6 hi8
  · exact uuidStr_length b h1
  · exact uuidStr_lower b h2

/-- Witness for C6 on the all-zero entropy read. -/
theorem generateUUID_masking_spec_witness :
    generateUUID none = none ∧
    ∃ b2, generateUUID (some (List.replicate 16 0))
        = some (String.mk (hexEncode b2)) ∧
      b2.length = 16 ∧
      128 ≤ b2.getD 8 0 ∧ b2.getD 8 0 ≤ 191 ∧
      64 ≤ b2.getD 6 0 ∧ b2.getD 6 0 ≤ 79 ∧
      (∀ i, ¬i = 6 → ¬i = 8 → b2.getD i 0 = (List.replicate 16 0).getD i 0) ∧
      (String.mk (hexEncode b2)).length = 32 ∧
      (hexEncode b2).all isLowerHex = true :=
  generateUUID_masking_spec (List.replicate 16 0) (by decide) (by decide)

/-- C5: client identity lifecycle on a two-segment request.  With a
`cid` cookie, its value is the dispatched client id and no cookie is
set; without one, a fresh 32-character lowercase hexadecimal identity is
generated, set as a `cid` cookie scoped to `/<account>`, and used as the
dispatched client id. -/
theorem client_identity_lifecycle (req : Request) (e : Option (List Nat))
    (n : Int) (ts : String) (ok : Bool)
    (h : (splitN2Str (trimSlashes req.path)).length = 2) :
    (∀ v, req.cidCookie = some v →
      (handler req e n ts ok).setCookie = none ∧
      ∀ p, (handler req e n ts ok).dispatched = some p → p.client_id = v) ∧
    (∀ b, req.cidCookie = none → e = some b → b.length = 16 →
      (∀ x ∈ b, x < 256) →
      ∃ u, generateUUID (some b) = some u ∧
        u.length = 32 ∧ u.data.all isLowerHex = true ∧
        (handler req e n ts ok).setCookie
          = some (u, "/" ++ (handler req e n ts ok).tracked.headD "") ∧
        ∃ p, (handler req e n ts ok).dispatched = some p ∧
          p.client_id = u) := by
  have h2 : (effParams req).length ≠ 1 := by rw [effParams_length_two req h]; decide
  rw [handler_two_seg_eq req e n ts ok (two_seg_not_root req.path h) h2]
  constructor
  · intro v hv
    have hcid : effCid req e = (v, none) := by
      unfold effCid resolveCid
      rw [hv]
    refine ⟨by rw [hcid], ?_⟩
    intro p hp
    simp only [] at hp
    unfold effPayload at hp
    rw [hcid] at hp
    by_cases hv0 : v.length = 0
    · rw [if_pos hv0] at hp
      simp at hp
    · rw [if_neg hv0] at hp
      simp only [Option.some.injEq] at hp
      rw [← hp]
      rfl
  · intro b hc he h1 hb
    subst he
    refine ⟨String.mk (hexEncode (maskUUIDBytes b)), rfl, uuidStr_length b h1,
      uuidStr_lower b hb, ?_, ?_⟩
    · have hcid : effCid req (some b)
          = (String.mk (hexEncode (maskUUIDBytes b)),
             some (String.mk (hexEncode (maskUUIDBytes b)),
               "/" ++ (effParams req).headD "")) := by
        unfold effCid resolveCid
        rw [hc]
        rfl
      rw [hcid]
    · have hcid : effCid req (some b)
          = (String.mk (hexEncode (maskUUIDBytes b)),
             some (String.mk (hexEncode (maskUUIDBytes b)),
               "/" ++ (effParams req).headD "")) := by
        unfold effCid resolveCid
        rw [hc]
        rfl
      have hlen : (String.mk (hexEncode (maskUUIDBytes b))).length ≠ 0 := by
        rw [uuidStr_length b h1]
        decide
      refine ⟨logHit (effParams req) (effQuery req) req.userAgent
        req.remoteAddr (String.mk (hexEncode (maskUUIDBytes b))) n ts, ?_, rfl⟩
      simp only []
      unfold effPayload
      rw [hcid]
      simp only []
      rw [if_neg hlen]

/-- Witness for C5 at `GET /a/b` with no cookie and an all-zero entropy
read, and at the same path with an existing cookie `c`. -/
theorem client_identity_lifecycle_witness :
    ((handler ⟨"/a/b", [], "", some "c", "ua", "ip"⟩
        (some (List.replicate 16 0)) 0 "t" true).setCookie = none ∧
      ∀ p, (handler ⟨"/a/b", [], "", some "c", "ua", "ip"⟩
        (some (List.replicate 16 0)) 0 "t" true).dispatched = some p →
        p.client_id = "c") ∧
    (∃ u, generateUUID (some (List.replicate 16 0)) = some u ∧
      u.length = 32 ∧ u.data.all isLowerHex = true ∧
      (handler ⟨"/a/b", [], "", none, "ua", "ip"⟩
          (some (List.replicate 16 0)) 0 "t" true).setCookie
        = some (u, "/" ++ (handler ⟨"/a/b", [], "", none, "ua", "ip"⟩
            (some (List.replicate 16 0)) 0 "t" true).tracked.headD "") ∧
      ∃ p, (handler ⟨"/a/b", [], "", none, "ua", "ip"⟩
          (some (List.replicate 16 0)) 0 "t" true).dispatched = some p ∧
        p.client_id = u) :=
  ⟨(client_identity_lifecycle ⟨"/a/b", [], "", some "c", "ua", "ip"⟩
      (some (List.replicate 16 0)) 0 "t" true (by decide)).1 "c" rfl,
   (client_identity_lifecycle ⟨"/a/b", [], "", none, "ua", "ip"⟩
      (some (List.replicate 16 0)) 0 "t" true (by decide)).2
     (List.replicate 16 0) rfl rfl (by decide) (by decide)⟩

/-! Lemmas about event parameters. -/

theorem lookupQ_cons (a v : String) (rest : List (String × String))
    (key : String) :
    lookupQ ((a, v) :: rest) key
      = if key = a then some v else lookupQ rest key := rfl

theorem eventCustomParams_cons (kv : String × List String) (rest : Query) :
    eventCustomParams (kv :: rest)
      = if (!kv.2.isEmpty && !isReservedParam kv.1) = true
        then ("custom_" ++ kv.1, kv.2.headD "") :: eventCustomParams rest
        else eventCustomParams rest := by
  unfold eventCustomParams
  rw [List.filter_cons]
  by_cases hf : (!kv.2.isEmpty && !isReservedParam kv.1) = true
  · rw [if_pos hf, if_pos hf, List.map_cons]
  · rw [if_neg hf, if_neg hf]

theorem custom_data_head (k : String) :
    ("custom_" ++ k).data.head? = some 'c' := by
  rw [data_str_append]
  rfl

theorem custom_ne_of_head (k s : String) (h : ¬s.data.head? = some 'c') :
    ¬("custom_" ++ k) = s := by
  intro he
  apply h
  rw [← he]
  exact custom_data_head k

theorem custom_inj (a b : String) (h : "custom_" ++ a = "custom_" ++ b) :
    a = b := by
  have hd := congrArg String.data h
  rw [data_str_append, data_str_append] at hd
  have h2 : a.data = b.data := List.append_cancel_left hd
  calc a = String.mk a.data := rfl
    _ = String.mk b.data := by rw [h2]
    _ = b := rfl

theorem lookupQ_base_custom (ua ip : String) (n : Int) (ts k : String) :
    lookupQ (eventBaseParams ua ip n ts) ("custom_" ++ k) = none := by
  unfold eventBaseParams
  rw [lookupQ_cons, if_neg (custom_ne_of_head k "session_id" (by decide)),
    lookupQ_cons, if_neg (custom_ne_of_head k "user_agent" (by decide)),
    lookupQ_cons, if_neg (custom_ne_of_head k "ip_address" (by decide)),
    lookupQ_cons, if_neg (custom_ne_of_head k "timestamp" (by decide))]
  rfl

theorem lookupQ_append_none (l1 l2 : List (String × String)) (k : String)
    (h : lookupQ l1 k = none) : lookupQ (l1 ++ l2) k = lookupQ l2 k := by
  induction l1 with
  | nil => rfl
  | cons kv rest ih =>
    rcases kv with ⟨a, v⟩
    rw [lookupQ_cons] at h
    rw [List.cons_append, lookupQ_cons]
    by_cases ha : k = a
    · rw [if_pos ha] at h
      simp at h
    · rw [if_neg ha] at h
      rw [if_neg ha]
      exact ih h

theorem lookupQ_append_some (l1 l2 : List (String × String)) (k v : String)
    (h : lookupQ l1 k = some v) : lookupQ (l1 ++ l2) k = some v := by
  induction l1 with
  | nil => simp [lookupQ] at h
  | cons kv rest ih =>
    rcases kv with ⟨a, w⟩
    rw [lookupQ_cons] at h
    rw [List.cons_append, lookupQ_cons]
    by_cases ha : k = a
    · rw [if_pos ha] at h ⊢
      exact h
    · rw [if_neg ha] at h ⊢
      exact ih h

theorem lookupQ_customs_reserved (q : Query) (r : String)
    (hr : isReservedParam r = true) :
    lookupQ (eventCustomParams q) ("custom_" ++ r) = none := by
  induction q with
  | nil => rfl
  | cons kv rest ih =>
    rw [eventCustomParams_cons]
    by_cases hf : (!kv.2.isEmpty && !isReservedParam kv.1) = true
    · rw [if_pos hf, lookupQ_cons]
      have hne : ¬("custom_" ++ r) = ("custom_" ++ kv.1) := by
        intro he
        have hrk := custom_inj r kv.1 he
        rw [← hrk] at hf
        rw [hr] at hf
        simp at hf
      rw [if_neg hne]
      exact ih
    · rw [if_neg hf]
      exact ih

theorem lookupQ_customs_mem (q : Query) (hnd : (q.map Prod.fst).Nodup)
    (k : String) (vs : List String) (hm : (k, vs) ∈ q) (hne : vs ≠ [])
    (hres : isReservedParam k = false) :
    lookupQ (eventCustomParams q) ("custom_" ++ k) = some (vs.headD "") := by
  induction q with
  | nil => simp at hm
  | cons kv rest ih =>
    rcases kv with ⟨a, w⟩
    rw [List.map_cons, List.nodup_cons] at hnd
    rcases List.mem_cons.mp hm with he | hrest
    · injection he with h1 h2
      subst h1
      subst h2
      have hf : (!vs.isEmpty && !isReservedParam k) = true := by
        rw [hres]
        cases vs with
        | nil => exact absurd rfl hne
        | cons x l => rfl
      rw [eventCustomParams_cons, if_pos hf, lookupQ_cons, if_pos rfl]
    · have hkne : ¬a = k := by
        intro hq
        apply hnd.1
        rw [hq]
        have hmm := List.mem_map_of_mem Prod.fst hrest
        exact hmm
      rw [eventCustomParams_cons]
      by_cases hf : (!w.isEmpty && !isReservedParam a) = true
      · rw [if_pos hf, lookupQ_cons]
        have hcne : ¬("custom_" ++ k) = ("custom_" ++ a) := by
          intro he2
          exact hkne (custom_inj k a he2).symm
        rw [if_neg hcne]
        exact ih hnd.2 hrest
      · rw [if_neg hf]
        exact ih hnd.2 hrest

theorem reserved_referer : isReservedParam "referer" = true := by decide

theorem mem_effQuery_of_raw (req : Request) (k : String) (vs : List String)
    (hres : isReservedParam k = false) (hm : (k, vs) ∈ req.rawQuery) :
    (k, vs) ∈ effQuery req := by
  have hk : ¬k = "referer" := by
    intro he
    rw [he, reserved_referer] at hres
    simp at hres
  unfold effQuery
  by_cases hr : req.referer.length = 0
  · rw [if_pos hr]
    exact hm
  · rw [if_neg hr]
    unfold setKey
    by_cases hk2 : hasKey req.rawQuery "referer" = true
    · rw [if_pos hk2]
      have hmm := List.mem_map_of_mem
        (fun kv : String × List String =>
          if kv.1 = "referer" then ("referer", [req.referer]) else kv) hm
      simpa [hk] using hmm
    · rw [if_neg hk2]
      exact List.mem_append_left _ hm

theorem map_fst_setKey_map (q : Query) (k v : String) :
    (q.map (fun kv => if kv.1 = k then (k, [v]) else kv)).map Prod.fst
      = q.map Prod.fst := by
  induction q with
  | nil => rfl
  | cons kv rest ih =>
    by_cases hx : kv.1 = k
    · simp [hx, ih]
    · simp [hx, ih]

theorem hasKey_false_not_mem (q : Query) (k : String)
    (h : hasKey q k = false) : k ∉ q.map Prod.fst := by
  intro hmem
  rcases List.mem_map.mp hmem with ⟨kv, hkv, hfst⟩
  have hk : hasKey q k = true := by
    unfold hasKey
    rw [List.any_eq_true]
    exact ⟨kv, hkv, by simp [hfst]⟩
  rw [h] at hk
  simp at hk

theorem nodup_effQuery (req : Request)
    (h : (req.rawQuery.map Prod.fst).Nodup) :
    ((effQuery req).map Prod.fst).Nodup := by
  unfold effQuery
  by_cases hr : req.referer.length = 0
  · rw [if_pos hr]
    exact h
  · rw [if_neg hr]
    unfold setKey
    by_cases hk2 : hasKey req.rawQuery "referer" = true
    · rw [if_pos hk2]
      rw [map_fst_setKey_map]
      exact h
    · rw [if_neg hk2]
      rw [List.map_append]
      have hnm := hasKey_false_not_mem req.rawQuery "referer"
        (by simpa using hk2)
      simp [List.nodup_append, h, hnm]

theorem startsWithL_append (pat l : List Char) :
    startsWithL (pat ++ l) pat = true := by
  induction pat with
  | nil => cases l <;> rfl
  | cons x xs ih =>
    rw [List.cons_append]
    show (x == x && startsWithL (xs ++ l) xs) = true
    rw [ih]
    simp

/-- C2: in every dispatched event, no reserved query key appears as a
`custom_*` parameter, and every non-reserved query key with at least one
value appears exactly as `custom_<key> = first value`. -/
theorem custom_params_exact (req : Request) (e : Option (List Nat))
    (n : Int) (ts : String) (ok : Bool) (payload : GA4Payload)
    (ev : GA4Event) (hnd : (req.rawQuery.map Prod.fst).Nodup)
    (hd : (handler req e n ts ok).dispatched = some payload)
    (hev : ev ∈ payload.events) :
    (∀ r, isReservedParam r = true →
      lookupQ ev.params ("custom_" ++ r) = none) ∧
    (∀ k vs, (k, vs) ∈ req.rawQuery → vs ≠ [] →
      isReservedParam k = false →
      lookupQ ev.params ("custom_" ++ k) = some (vs.headD "")) := by
  obtain ⟨hp, -⟩ := handler_dispatched_shape req e n ts ok payload hd
  subst hp
  simp only [logHit, List.mem_singleton] at hev
  subst hev
  constructor
  · intro r hr
    show lookupQ (eventBaseParams req.userAgent req.remoteAddr n ts ++
      eventCustomParams (effQuery req)) ("custom_" ++ r) = none
    rw [lookupQ_append_none _ _ _ (lookupQ_base_custom _ _ _ _ _)]
    exact lookupQ_customs_reserved (effQuery req) r hr
  · intro k vs hm hne hres
    show lookupQ (eventBaseParams req.userAgent req.remoteAddr n ts ++
      eventCustomParams (effQuery req)) ("custom_" ++ k) = some (vs.headD "")
    rw [lookupQ_append_none _ _ _ (lookupQ_base_custom _ _ _ _ _)]
    exact lookupQ_customs_mem (effQuery req) (nodup_effQuery req hnd) k vs
      (mem_effQuery_of_raw req k vs hres hm) hne hres

/-- Witness for C2 at `GET /a/b?pixel&src=news` with an existing cookie:
`pixel` is reserved and absent from the custom parameters, `src` appears
as `custom_src=news`. -/
theorem custom_params_exact_witness :
    (∀ r, isReservedParam r = true →
      lookupQ (GA4Event.mk "page_view"
        [("session_id", "0"), ("user_agent", "ua"), ("ip_address", "ip"),
         ("timestamp", "t"), ("custom_src", "news")]).params
        ("custom_" ++ r) = none) ∧
    (∀ k vs, (k, vs) ∈ [("src", ["news"]), ("pixel", [""])] → vs ≠ [] →
      isReservedParam k = false →
      lookupQ (GA4Event.mk "page_view"
        [("session_id", "0"), ("user_agent", "ua"), ("ip_address", "ip"),
         ("timestamp", "t"), ("custom_src", "news")]).params
        ("custom_" ++ k) = some (vs.headD "")) :=
  custom_params_exact
    ⟨"/a/b", [("src", ["news"]), ("pixel", [""])], "", some "c", "ua", "ip"⟩
    none 0 "t" true
    ⟨"c", [⟨"page_view",
      [("session_id", "0"), ("user_agent", "ua"), ("ip_address", "ip"),
       ("timestamp", "t"), ("custom_src", "news")]⟩]⟩
    ⟨"page_view",
      [("session_id", "0"), ("user_agent", "ua"), ("ip_address", "ip"),
       ("timestamp", "t"), ("custom_src", "news")]⟩
    (by decide) (by decide) (by decide)

/-- C7: every dispatched payload contains exactly one event, named
`page_view`, whose parameters include the session id (Unix epoch second
as a decimal string), user agent, ip address and the RFC3339 timestamp,
and whose remaining parameters are all `custom_*` entries. -/
theorem payload_single_page_view (req : Request) (e : Option (List Nat))
    (n : Int) (ts : String) (ok : Bool) (payload : GA4Payload)
    (hd : (handler req e n ts ok).dispatched = some payload) :
    payload.events.length = 1 ∧
    ∀ ev ∈ payload.events, ev.name = "page_view" ∧
      lookupQ ev.params "session_id" = some (generateSessionID n) ∧
      lookupQ ev.params "user_agent" = some req.userAgent ∧
      lookupQ ev.params "ip_address" = some req.remoteAddr ∧
      lookupQ ev.params "timestamp" = some ts ∧
      ∀ pr ∈ ev.params,
        pr.1 = "session_id" ∨ pr.1 = "user_agent" ∨ pr.1 = "ip_address" ∨
        pr.1 = "timestamp" ∨ startsWithL pr.1.data "custom_".data = true := by
  obtain ⟨hp, -⟩ := handler_dispatched_shape req e n ts ok payload hd
  subst hp
  refine ⟨rfl, ?_⟩
  intro ev hev
  simp only [logHit, List.mem_singleton] at hev
  subst hev
  refine ⟨rfl, ?_, ?_, ?_, ?_, ?_⟩
  · exact lookupQ_append_some _ _ _ _ (by rw [eventBaseParams, lookupQ_cons,
      if_pos rfl])
  · exact lookupQ_append_some _ _ _ _ (by rw [eventBaseParams, lookupQ_cons,
      if_neg (by decide), lookupQ_cons, if_pos rfl])
  · exact lookupQ_append_some _ _ _ _ (by rw [eventBaseParams, lookupQ_cons,
      if_neg (by decide), lookupQ_cons, if_neg (by decide), lookupQ_cons,
      if_pos rfl])
  · exact lookupQ_append_some _ _ _ _ (by rw [eventBaseParams, lookupQ_cons,
      if_neg (by decide), lookupQ_cons, if_neg (by decide), lookupQ_cons,
      if_neg (by decide), lookupQ_cons, if_pos rfl])
  · intro pr hpr
    show pr.1 = "session_id" ∨ pr.1 = "user_agent" ∨ pr.1 = "ip_address" ∨
      pr.1 = "timestamp" ∨ startsWithL pr.1.data "custom_".data = true
    rcases List.mem_append.mp hpr with hb | hc
    · simp only [eventBaseParams, List.mem_cons, List.mem_singleton] at hb
      rcases hb with hb | hb | hb | hb | hb
      · left; rw [hb]
      · right; left; rw [hb]
      · right; right; left; rw [hb]
      · right; right; right; left; rw [hb]
      · simp at hb
    · right; right; right; right
      unfold eventCustomParams at hc
      rcases List.mem_map.mp hc with ⟨kv, -, hkv⟩
      rw [← hkv]
      show startsWithL ("custom_" ++ kv.1).data "custom_".data = true
      rw [data_str_append]
      exact startsWithL_append "custom_".data kv.1.data

/-- Witness for C7 at `GET /a/b?src=news` with an existing cookie. -/
theorem payload_single_page_view_witness :
    (GA4Payload.mk "c" [⟨"page_view",
      [("session_id", "0"), ("user_agent", "ua"), ("ip_address", "ip"),
       ("timestamp", "t"), ("custom_src", "news")]⟩]).events.length = 1 ∧
    ∀ ev ∈ (GA4Payload.mk "c" [⟨"page_view",
      [("session_id", "0"), ("user_agent", "ua"), ("ip_address", "ip"),
       ("timestamp", "t"), ("custom_src", "news")]⟩]).events,
      ev.name = "page_view" ∧
      lookupQ ev.params "session_id" = some (generateSessionID 0) ∧
      lookupQ ev.params "user_agent" = some "ua" ∧
      lookupQ ev.params "ip_address" = some "ip" ∧
      lookupQ ev.params "timestamp" = some "t" ∧
      ∀ pr ∈ ev.params,
        pr.1 = "session_id" ∨ pr.1 = "user_agent" ∨ pr.1 = "ip_address" ∨
        pr.1 = "timestamp" ∨ startsWithL pr.1.data "custom_".data = true :=
  payload_single_page_view
    ⟨"/a/b", [("src", ["news"])], "", some "c", "ua", "ip"⟩
    none 0 "t" true
    ⟨"c", [⟨"page_view",
      [("session_id", "0"), ("user_agent", "ua"), ("ip_address", "ip"),
       ("timestamp", "t"), ("custom_src", "news")]⟩]⟩
    (by decide)

end GaBeacon
